import Mathlib

/-!
Shallow embedding of the client-side node-health analytics engine of the
xandeum monitoring dashboard, together with theorems checking the
natural-language specification against the code.

Conventions of the embedding:
* JavaScript numbers are modelled as exact rationals; `Math.sqrt` is the
  real square root, so the statistical functions producing it land in the
  reals.  `Math.round x` is `round x` (both equal the floor of `x + 1/2`),
  `Math.ceil` is the integer ceiling.
* Optional fields are `Option` values; the JavaScript truthiness test on an
  optional number holds exactly when the field is present and nonzero.
* `Date` values (timestamps) are collapsed to their millisecond value; the
  ambient `Date.now()` is passed as an explicit parameter where the code
  reads the clock.  The `timestamp: new Date()` field of emitted anomalies
  carries no analytical content and is not modelled.
* Message strings whose JavaScript template interpolates formatted numbers
  are modelled by their constant head; the interpolated numeric payload is
  carried in the structured `details` field.
-/

namespace Xandeum

/-- Node status: `'online' | 'offline' | 'unknown'`. -/
inductive NodeStatus where
  | online
  | offline
  | unknown
  deriving DecidableEq, Repr

/-- The fields of the `pNode` interface consumed by the analytics core
(`src/unnamed/part_002`).  `lastSeen` is a millisecond timestamp. -/
structure PNode where
  id : String
  status : NodeStatus
  lastSeen : ℚ
  peerCount : ℚ
  storageCapacity : Option ℚ
  storageUsed : Option ℚ
  latency : Option ℚ
  uptime : Option ℚ
  isValidator : Bool
  deriving DecidableEq, Repr

/-- JavaScript truthiness of an optional number: present and nonzero. -/
def truthy : Option ℚ → Bool
  | none => false
  | some v => decide (v ≠ 0)

/-- `mean` from `src/unnamed/part_004`: 0 for the empty list, otherwise the
`reduce`-accumulated sum divided by the length. -/
def mean (values : List ℚ) : ℚ :=
  if values.length = 0 then 0
  else (values.foldl (fun sum v => sum + v) 0) / (values.length : ℚ)

/-- The variance expression inside `stddev` (sum of squared deviations from
the mean, divided by `length - 1`); only ever consumed for lists of length
at least 2. -/
def svariance (values : List ℚ) : ℚ :=
  (values.foldl (fun acc v => acc + (v - mean values) ^ 2) 0) / ((values.length : ℚ) - 1)

/-- `stddev` from `src/unnamed/part_004`: 0 for lists of length below 2,
otherwise the square root of the Bessel-corrected sample variance. -/
noncomputable def stddev (values : List ℚ) : ℝ :=
  if values.length < 2 then 0 else Real.sqrt ((svariance values : ℚ) : ℝ)

open Classical in
/-- `zScore` from `src/unnamed/part_004`: 0 when the standard deviation is
0, otherwise `(value - mean) / sigma`. -/
noncomputable def zScore (value : ℚ) (values : List ℚ) : ℝ :=
  if stddev values = 0 then 0
  else ((value : ℝ) - ((mean values : ℚ) : ℝ)) / stddev values

/-- The local `percentile` helper of the analytics page
(`src/unnamed/part_007`, lines 161-165): 0 for the empty list, otherwise
the element at index `ceil(p/100 * n) - 1` clamped below by 0.  The array
access `arr[i]` yields `none` (JavaScript `undefined`) when the index is
past the end; the function does not sort its input. -/
def percentile (arr : List ℚ) (p : ℚ) : Option ℚ :=
  if arr.length = 0 then some 0
  else
    let index : ℤ := ⌈p / 100 * (arr.length : ℚ)⌉ - 1
    arr.get? (max 0 index).toNat

/-- The percentile function as the specification words it: sort ascending,
take index `ceil(p/100 * n) - 1` clamped to `[0, n-1]`, and 0 for empty
input.  This is the reference definition the claim is compared against. -/
def percentileClaim (xs : List ℚ) (p : ℚ) : Option ℚ :=
  if xs.length = 0 then some 0
  else
    let sorted := xs.insertionSort (fun a b => a ≤ b)
    let index : ℤ := ⌈p / 100 * (xs.length : ℚ)⌉ - 1
    sorted.get? (min (xs.length - 1) (max 0 index).toNat)

/-! ## Health scorer (`src/lib/health.ts`)

`calculateHealthScore` is a sequence of assignments to a running `score`;
each assignment is exposed here as its own definition (`healthScore1` is
the running score after the uptime block, `healthScore2` after the latency
block, and so on), so the blend steps can be reasoned about separately. -/

/-- Health status label: `'healthy' | 'warning' | 'critical'`. -/
inductive HealthStatusLabel where
  | healthy
  | warning
  | critical
  deriving DecidableEq, Repr

/-- The `factors` record of a `HealthScore`. -/
structure HealthFactors where
  uptime : ℚ
  latency : ℚ
  peerCount : ℚ
  lastSeen : ℚ
  storageUsage : ℚ
  deriving DecidableEq, Repr

/-- The `HealthScore` result record. -/
structure HealthScore where
  nodeId : String
  score : ℤ
  status : HealthStatusLabel
  factors : HealthFactors
  deriving DecidableEq, Repr

/-- Uptime factor: `min(100, (uptimeDays / 30) * 100)` with
`uptimeDays = uptime / (24 * 3600)`. -/
def uptimeFactor (uptime : ℚ) : ℚ :=
  min 100 (uptime / (24 * 3600) / 30 * 100)

/-- The uptime blend assignment, line 21 of `src/lib/health.ts`:
`score = score * 0.3 + factors.uptime * 0.3`. -/
def healthUptimeBlend (score factor : ℚ) : ℚ :=
  score * (3 / 10) + factor * (3 / 10)

/-- `factors.uptime`: stays at the neutral 100 unless `node.uptime` is
truthy. -/
def healthFactorUptime (node : PNode) : ℚ :=
  if truthy node.uptime then uptimeFactor (node.uptime.getD 0) else 100

/-- Running score after the uptime block (initial score is 100). -/
def healthScore1 (node : PNode) : ℚ :=
  if truthy node.uptime then healthUptimeBlend 100 (healthFactorUptime node) else 100

/-- Latency factor tiers. -/
def latencyFactor (latency : ℚ) : ℚ :=
  if latency < 100 then 100
  else if latency < 500 then 80
  else if latency < 1000 then 60
  else 40

/-- `factors.latency`: tiers apply whenever `node.latency !== undefined`. -/
def healthFactorLatency (node : PNode) : ℚ :=
  match node.latency with
  | none => 100
  | some l => latencyFactor l

/-- Running score after the latency block:
`score = score * 0.8 + factors.latency * 0.2` when latency is defined. -/
def healthScore2 (node : PNode) : ℚ :=
  match node.latency with
  | none => healthScore1 node
  | some _ => healthScore1 node * (8 / 10) + healthFactorLatency node * (2 / 10)

/-- Peer count factor tiers (always applied). -/
def peerCountFactor (peerCount : ℚ) : ℚ :=
  if peerCount < 5 then 50
  else if peerCount < 10 then 70
  else if peerCount < 20 then 85
  else 100

/-- Running score after the peer count block:
`score = score * 0.8 + factors.peerCount * 0.2`. -/
def healthScore3 (node : PNode) : ℚ :=
  healthScore2 node * (8 / 10) + peerCountFactor node.peerCount * (2 / 10)

/-- Minutes since `lastSeen`: `(Date.now() - lastSeen) / 60000`. -/
def lastSeenMinutes (node : PNode) (now : ℚ) : ℚ :=
  (now - node.lastSeen) / 60000

/-- Last-seen factor tiers (always applied). -/
def lastSeenFactor (minutes : ℚ) : ℚ :=
  if minutes < 5 then 100
  else if minutes < 15 then 80
  else if minutes < 60 then 60
  else 30

/-- Running score after the last-seen block:
`score = score * 0.85 + factors.lastSeen * 0.15`. -/
def healthScore4 (node : PNode) (now : ℚ) : ℚ :=
  healthScore3 node * (85 / 100) + lastSeenFactor (lastSeenMinutes node now) * (15 / 100)

/-- `(storageUsed / storageCapacity) * 100`. -/
def usagePercent (used capacity : ℚ) : ℚ :=
  used / capacity * 100

/-- Storage usage factor tiers. -/
def storageFactor (usage : ℚ) : ℚ :=
  if usage < 70 then 100
  else if usage < 85 then 80
  else if usage < 95 then 60
  else 30

/-- `factors.storageUsage`: stays at the neutral 100 unless both
`node.storageCapacity` and `node.storageUsed` are truthy. -/
def healthFactorStorage (node : PNode) : ℚ :=
  if truthy node.storageCapacity && truthy node.storageUsed then
    storageFactor (usagePercent (node.storageUsed.getD 0) (node.storageCapacity.getD 0))
  else 100

/-- Running score after the storage block:
`score = score * 0.85 + factors.storageUsage * 0.15` when both storage
fields are truthy. -/
def healthScore5 (node : PNode) (now : ℚ) : ℚ :=
  if truthy node.storageCapacity && truthy node.storageUsed then
    healthScore4 node now * (85 / 100) + healthFactorStorage node * (15 / 100)
  else healthScore4 node now

/-- Running score after the status ceiling: `min(score, 20)` when offline,
`min(score, 50)` when unknown. -/
def healthScore6 (node : PNode) (now : ℚ) : ℚ :=
  match node.status with
  | NodeStatus.offline => min (healthScore5 node now) 20
  | NodeStatus.unknown => min (healthScore5 node now) 50
  | NodeStatus.online => healthScore5 node now

/-- `finalScore = Math.round(Math.max(0, Math.min(100, score)))`. -/
def healthFinalScore (node : PNode) (now : ℚ) : ℤ :=
  round (max 0 (min 100 (healthScore6 node now)))

/-- `calculateHealthScore` from `src/lib/health.ts`. -/
def calculateHealthScore (node : PNode) (now : ℚ) : HealthScore :=
  { nodeId := node.id
    score := healthFinalScore node now
    status :=
      if 80 ≤ healthFinalScore node now then HealthStatusLabel.healthy
      else if 50 ≤ healthFinalScore node now then HealthStatusLabel.warning
      else HealthStatusLabel.critical
    factors :=
      { uptime := healthFactorUptime node
        latency := healthFactorLatency node
        peerCount := peerCountFactor node.peerCount
        lastSeen := lastSeenFactor (lastSeenMinutes node now)
        storageUsage := healthFactorStorage node } }

/-! ## Rolling history store (`src/unnamed/part_004`) -/

/-- The `MetricSnapshot` projection stored in rolling history. -/
structure MetricSnapshot where
  timestamp : ℚ
  latency : Option ℚ
  peerCount : Option ℚ
  storageUsed : Option ℚ
  storageCapacity : Option ℚ
  uptime : Option ℚ
  status : NodeStatus
  deriving DecidableEq, Repr

/-- `MAX_HISTORY = 50`. -/
def MAX_HISTORY : ℕ := 50

/-- The history store, keyed by node id.  The JavaScript record read
`next[node.id] ? [...next[node.id]] : []` makes absent keys behave as the
empty list, so the store is modelled as a total map into snapshot lists. -/
abbrev History := String → List MetricSnapshot

/-- The store with no entries. -/
def emptyHistory : History := fun _ => []

/-- `toSnapshot(node, timestamp)`. -/
def toSnapshot (node : PNode) (timestamp : ℚ) : MetricSnapshot :=
  { timestamp := timestamp
    latency := node.latency
    peerCount := some node.peerCount
    storageUsed := node.storageUsed
    storageCapacity := node.storageCapacity
    uptime := node.uptime
    status := node.status }

/-- The per-node body of `updateHistory`: `list.push(snapshot)` followed by
`list.splice(0, list.length - MAX_HISTORY)` when the capped length is
exceeded. -/
def pushEvict (list : List MetricSnapshot) (snap : MetricSnapshot) : List MetricSnapshot :=
  let l := list ++ [snap]
  if MAX_HISTORY < l.length then l.drop (l.length - MAX_HISTORY) else l

/-- `updateHistory(nodes, current)` from `src/unnamed/part_004`, with the
shared `Date.now()` timestamp passed explicitly.  The persistence side
effect (`persistHistory`) writes the returned store out and swallows
failures; it does not alter the returned value and is not modelled. -/
def updateHistory (nodes : List PNode) (now : ℚ) (current : History) : History :=
  nodes.foldl
    (fun next node =>
      Function.update next node.id (pushEvict (next node.id) (toSnapshot node now)))
    current

/-! ## Anomaly detector (`src/unnamed/part_004`) -/

/-- Anomaly type tags. -/
inductive AnomalyType where
  | latency_spike
  | peer_drop
  | storage_anomaly
  | offline
  | version_mismatch
  deriving DecidableEq, Repr

/-- Anomaly severity. -/
inductive Severity where
  | low
  | medium
  | high
  | critical
  deriving DecidableEq, Repr

/-- The structured `details` payloads attached to anomalies. -/
inductive AnomalyDetails where
  | zScoreDetails (z : ℝ)
  | peerDetails (previous current : ℚ)
  | usageDetails (usagePercent : ℚ)
  | growthDetails (previous current : ℚ)

/-- An emitted anomaly (the `timestamp: new Date()` field is not
modelled). -/
structure Anomaly where
  nodeId : String
  type : AnomalyType
  severity : Severity
  message : String
  details : Option AnomalyDetails

/-- The offline rule: emitted when `node.status === 'offline'`. -/
def offlineAnomalies (node : PNode) : List Anomaly :=
  if node.status = NodeStatus.offline then
    [{ nodeId := node.id
       type := AnomalyType.offline
       severity := Severity.critical
       message := "Node is offline"
       details := none }]
  else []

/-- The latency series drawn from history:
`history.map((h) => h.latency ?? 0).filter(Boolean)` (zero entries are
filtered out by truthiness). -/
def latencySeries (history : List MetricSnapshot) : List ℚ :=
  (history.map (fun h => h.latency.getD 0)).filter (fun v => decide (v ≠ 0))

open Classical in
/-- The latency-spike rule: guarded by `node.latency` truthiness and
`history.length >= 4`; emits when the z-score of the current latency
against the filtered series is at least 2.5, with severity `high` from 3
upward and the z-score in `details`. -/
noncomputable def latencyAnomalies (node : PNode) (history : List MetricSnapshot) :
    List Anomaly :=
  if truthy node.latency && decide (4 ≤ history.length) then
    if (5 / 2 : ℝ) ≤ zScore (node.latency.getD 0) (latencySeries history) then
      [{ nodeId := node.id
         type := AnomalyType.latency_spike
         severity :=
           if (3 : ℝ) ≤ zScore (node.latency.getD 0) (latencySeries history) then
             Severity.high
           else Severity.medium
         message := "Latency anomaly"
         details := some (AnomalyDetails.zScoreDetails
           (zScore (node.latency.getD 0) (latencySeries history))) }]
    else []
  else []

/-- `history[history.length - 2]` (the previous snapshot; `undefined`,
i.e. `none`, when fewer than two entries exist). -/
def previousSnapshot (history : List MetricSnapshot) : Option MetricSnapshot :=
  if 2 ≤ history.length then history.get? (history.length - 2) else none

/-- The peer-drop rule: `previous?.peerCount !== undefined` and
`node.peerCount < previous.peerCount * 0.6`. -/
def peerAnomalies (node : PNode) (history : List MetricSnapshot) : List Anomaly :=
  match previousSnapshot history with
  | none => []
  | some prev =>
    match prev.peerCount with
    | none => []
    | some prevPeers =>
      if node.peerCount < prevPeers * (6 / 10) then
        [{ nodeId := node.id
           type := AnomalyType.peer_drop
           severity := Severity.medium
           message := "Peer drop"
           details := some (AnomalyDetails.peerDetails prevPeers node.peerCount) }]
      else []

/-- The storage rule: when both storage fields are truthy, usage at least
90 percent emits (severity `high` from 98 upward), otherwise a jump past
1.2 times the previous truthy `storageUsed` emits severity `low`. -/
def storageAnomalies (node : PNode) (history : List MetricSnapshot) : List Anomaly :=
  if truthy node.storageCapacity && truthy node.storageUsed then
    if 90 ≤ usagePercent (node.storageUsed.getD 0) (node.storageCapacity.getD 0) then
      [{ nodeId := node.id
         type := AnomalyType.storage_anomaly
         severity :=
           if 98 ≤ usagePercent (node.storageUsed.getD 0) (node.storageCapacity.getD 0) then
             Severity.high
           else Severity.medium
         message := "Storage high"
         details := some (AnomalyDetails.usageDetails
           (usagePercent (node.storageUsed.getD 0) (node.storageCapacity.getD 0))) }]
    else
      match previousSnapshot history with
      | none => []
      | some prev =>
        if truthy prev.storageUsed &&
            decide (prev.storageUsed.getD 0 * (12 / 10) < node.storageUsed.getD 0) then
          [{ nodeId := node.id
             type := AnomalyType.storage_anomaly
             severity := Severity.low
             message := "Storage grew unusually fast"
             details := some (AnomalyDetails.growthDetails
               (prev.storageUsed.getD 0) (node.storageUsed.getD 0)) }]
        else []
  else []

/-- `detectAnomaliesForNode(node, history)` from `src/unnamed/part_004`:
returns the empty list outright for empty history, otherwise the
concatenation of the four rule blocks in source order. -/
noncomputable def detectAnomaliesForNode (node : PNode) (history : List MetricSnapshot) :
    List Anomaly :=
  if history.length = 0 then []
  else
    offlineAnomalies node ++ latencyAnomalies node history ++
      peerAnomalies node history ++ storageAnomalies node history

/-! ## Risk scorer (`src/unnamed/part_004`) -/

/-- `severityWeights`. -/
def severityWeights : Severity → ℚ
  | Severity.critical => 35
  | Severity.high => 20
  | Severity.medium => 12
  | Severity.low => 6

/-- Running risk score after the status penalty (`score -= 15` when
unknown; the offline short-circuit sits in `deriveRiskScore` itself). -/
def riskS1 (node : PNode) : ℚ :=
  if node.status = NodeStatus.unknown then 100 - 15 else 100

/-- Running risk score after the latency penalty block. -/
def riskS2 (node : PNode) : ℚ :=
  match node.latency with
  | none => riskS1 node
  | some l =>
    if 2000 < l then riskS1 node - 30
    else if 1000 < l then riskS1 node - 18
    else if 500 < l then riskS1 node - 10
    else riskS1 node

/-- Running risk score after the peer count penalty block. -/
def riskS3 (node : PNode) : ℚ :=
  if node.peerCount < 5 then riskS2 node - 20
  else if node.peerCount < 10 then riskS2 node - 10
  else riskS2 node

/-- Running risk score after the storage penalty block (guarded by
truthiness of both storage fields). -/
def riskS4 (node : PNode) : ℚ :=
  if truthy node.storageCapacity && truthy node.storageUsed then
    if 95 < usagePercent (node.storageUsed.getD 0) (node.storageCapacity.getD 0) then
      riskS3 node - 25
    else if 85 < usagePercent (node.storageUsed.getD 0) (node.storageCapacity.getD 0) then
      riskS3 node - 12
    else riskS3 node
  else riskS3 node

/-- Running risk score after the uptime penalty block (guarded by
`node.uptime` truthiness). -/
def riskS5 (node : PNode) : ℚ :=
  if truthy node.uptime && decide (node.uptime.getD 0 < 24 * 3600) then riskS4 node - 10
  else riskS4 node

/-- Running risk score after the per-anomaly severity subtractions. -/
def riskS6 (node : PNode) (anomalies : List Anomaly) : ℚ :=
  anomalies.foldl (fun acc a => acc - severityWeights a.severity) (riskS5 node)

/-- `deriveRiskScore(node, anomalies)`: offline short-circuits to 5,
otherwise sequential penalties are subtracted from 100 and the result is
`Math.max(0, Math.min(100, Math.round(score)))`. -/
def deriveRiskScore (node : PNode) (anomalies : List Anomaly) : ℤ :=
  if node.status = NodeStatus.offline then 5
  else max 0 (min 100 (round (riskS6 node anomalies)))

/-- The status penalty as the claim words it. -/
def statusPenalty (node : PNode) : ℚ :=
  if node.status = NodeStatus.unknown then 15 else 0

/-- The latency penalty as the claim words it. -/
def latencyPenalty (node : PNode) : ℚ :=
  match node.latency with
  | none => 0
  | some l => if 2000 < l then 30 else if 1000 < l then 18 else if 500 < l then 10 else 0

/-- The peer count penalty as the claim words it. -/
def peerPenalty (node : PNode) : ℚ :=
  if node.peerCount < 5 then 20 else if node.peerCount < 10 then 10 else 0

/-- The storage penalty as the claim words it, for nodes carrying both
storage fields. -/
def storagePenalty (node : PNode) : ℚ :=
  match node.storageUsed, node.storageCapacity with
  | some used, some cap =>
    if 95 < usagePercent used cap then 25
    else if 85 < usagePercent used cap then 12
    else 0
  | _, _ => 0

/-- The uptime penalty as the claim words it: 10 whenever an uptime value
below 24 hours is present (no truthiness guard). -/
def uptimePenaltyClaim (node : PNode) : ℚ :=
  match node.uptime with
  | none => 0
  | some u => if u < 24 * 3600 then 10 else 0

/-- The uptime penalty as the code computes it: 10 only when `node.uptime`
is truthy (present and nonzero) and below 24 hours. -/
def uptimePenaltyCode (node : PNode) : ℚ :=
  if truthy node.uptime && decide (node.uptime.getD 0 < 24 * 3600) then 10 else 0

/-- The summed anomaly severity weights. -/
def anomalyPenalty (anomalies : List Anomaly) : ℚ :=
  (anomalies.map (fun a => severityWeights a.severity)).sum

/-- The risk score exactly as the claim words it: offline returns 5;
otherwise 100 minus the status, latency, peer, storage and uptime
penalties and the sum of anomaly severity weights, clamped to `[0, 100]`
and then rounded. -/
def deriveRiskScoreClaim (node : PNode) (anomalies : List Anomaly) : ℤ :=
  if node.status = NodeStatus.offline then 5
  else
    round (max 0 (min 100
      (100 - statusPenalty node - latencyPenalty node - peerPenalty node -
        storagePenalty node - uptimePenaltyClaim node - anomalyPenalty anomalies)))

/-- The claim's risk score amended only in its uptime penalty: the penalty
applies when the uptime field is truthy (present and nonzero) and below 24
hours, matching the `node.uptime &&` guard in the code. -/
def deriveRiskScoreAmended (node : PNode) (anomalies : List Anomaly) : ℤ :=
  if node.status = NodeStatus.offline then 5
  else
    round (max 0 (min 100
      (100 - statusPenalty node - latencyPenalty node - peerPenalty node -
        storagePenalty node - uptimePenaltyCode node - anomalyPenalty anomalies)))

/-! ## Network aggregator (`src/lib/clientHistory.ts`) -/

/-- The numeric fields of `NetworkStats`.  The version and region
distribution maps involve regex bucketing and IP heuristics outside the
claims under check and are not modelled. -/
structure NetworkStats where
  totalNodes : ℕ
  onlineNodes : ℕ
  offlineNodes : ℕ
  totalStorageCapacity : ℚ
  totalStorageUsed : ℚ
  averagePeerCount : ℚ
  averageLatency : ℚ
  validatorCount : ℕ
  deriving DecidableEq, Repr

/-- `Math.round(x * 100) / 100` (rounding to 2 decimal places). -/
def round2 (q : ℚ) : ℚ :=
  ((round (q * 100) : ℤ) : ℚ) / 100

/-- `calculateNetworkStats(nodes)` from `src/lib/clientHistory.ts`
(numeric fields). -/
def calculateNetworkStats (nodes : List PNode) : NetworkStats :=
  let onlineNodes := (nodes.filter (fun n => decide (n.status = NodeStatus.online))).length
  let offlineNodes := (nodes.filter (fun n => decide (n.status = NodeStatus.offline))).length
  let validatorCount := (nodes.filter (fun n => n.isValidator)).length
  let totalStorageCapacity :=
    nodes.foldl (fun sum n => sum + n.storageCapacity.getD 0) 0
  let totalStorageUsed :=
    nodes.foldl (fun sum n => sum + n.storageUsed.getD 0) 0
  let nodesWithPeers := nodes.filter (fun n => decide (0 < n.peerCount))
  let averagePeerCount : ℚ :=
    if 0 < nodesWithPeers.length then
      (nodesWithPeers.foldl (fun sum n => sum + n.peerCount) 0) / (nodesWithPeers.length : ℚ)
    else 0
  let nodesWithLatency := nodes.filter (fun n => n.latency.isSome)
  let averageLatency : ℚ :=
    if 0 < nodesWithLatency.length then
      (nodesWithLatency.foldl (fun sum n => sum + n.latency.getD 0) 0) /
        (nodesWithLatency.length : ℚ)
    else 0
  { totalNodes := nodes.length
    onlineNodes := onlineNodes
    offlineNodes := offlineNodes
    totalStorageCapacity := totalStorageCapacity
    totalStorageUsed := totalStorageUsed
    averagePeerCount := round2 averagePeerCount
    averageLatency := round2 averageLatency
    validatorCount := validatorCount }

/-! ## Helper lemmas -/

/-- Unfolding `updateHistory` over a cons cell. -/
theorem updateHistory_cons (n : PNode) (rest : List PNode) (now : ℚ) (h : History) :
    updateHistory (n :: rest) now h =
      updateHistory rest now
        (Function.update h n.id (pushEvict (h n.id) (toSnapshot n now))) := rfl

/-- `updateHistory` on the empty node list is the identity. -/
theorem updateHistory_nil (now : ℚ) (h : History) : updateHistory [] now h = h := rfl

/-- Ids absent from the input are untouched by `updateHistory`. -/
theorem updateHistory_not_mem (nodes : List PNode) (now : ℚ) (h : History) (id : String)
    (hid : id ∉ nodes.map PNode.id) : updateHistory nodes now h id = h id := by
  induction nodes generalizing h with
  | nil => rfl
  | cons n rest ih =>
    have hne : id ≠ n.id := by
      intro he
      exact hid (by simp [he])
    have hrest : id ∉ rest.map PNode.id := by
      intro hm
      exact hid (by simp [hm])
    rw [updateHistory_cons, ih _ hrest, Function.update_noteq hne]

/-! ## C1: the uptime blend step -/

/-- A node with thirty days of uptime, twenty peers, seen just now and no
latency or storage data. -/
def c1Node : PNode :=
  { id := "n1"
    status := NodeStatus.online
    lastSeen := 0
    peerCount := 20
    storageCapacity := none
    storageUsed := none
    latency := none
    uptime := some (30 * 24 * 3600)
    isValidator := false }

/-- C1 counterexample: the code blends the uptime factor with
`score * 0.3 + factor * 0.3`, so after the step the running score is 60,
not the `0.7 * score + 0.3 * factor = 100` the claim predicts; the final
health score of this node is 73, not 100. -/
theorem c1_counterexample :
    healthScore1 c1Node = 60 ∧
    healthScore1 c1Node ≠ (1 - 3 / 10) * 100 + (3 / 10) * healthFactorUptime c1Node ∧
    (calculateHealthScore c1Node 0).score = 73 := by
  refine ⟨by norm_num [healthScore1, healthUptimeBlend, healthFactorUptime, uptimeFactor,
    truthy, c1Node], ?_, ?_⟩
  · norm_num [healthScore1, healthUptimeBlend, healthFactorUptime, uptimeFactor,
      truthy, c1Node]
  · norm_num [calculateHealthScore, healthFinalScore, healthScore6, healthScore5,
      healthScore4, healthScore3, healthScore2, healthScore1, healthUptimeBlend,
      healthFactorUptime, uptimeFactor, healthFactorLatency, peerCountFactor,
      lastSeenFactor, lastSeenMinutes, healthFactorStorage, truthy, c1Node, round_eq]

/-- C1 (amended): when `uptime` is present (truthy), the uptime blend step
updates the running score to `score * 0.3 + factor * 0.3`, i.e. 0.3 times
the previous running score (100) plus 0.3 times the uptime factor
`min(100, (uptime_days / 30) * 100)`. -/
theorem c1_uptime_blend (node : PNode) (h : truthy node.uptime = true) :
    healthScore1 node = 100 * (3 / 10) + healthFactorUptime node * (3 / 10) ∧
    healthFactorUptime node = min 100 (node.uptime.getD 0 / (24 * 3600) / 30 * 100) := by
  constructor
  · simp [healthScore1, healthUptimeBlend, h]
  · simp [healthFactorUptime, uptimeFactor, h]

/-- Witness for `c1_uptime_blend` at `c1Node`. -/
theorem c1_uptime_blend_witness :
    truthy c1Node.uptime = true ∧
    healthScore1 c1Node = 100 * (3 / 10) + healthFactorUptime c1Node * (3 / 10) :=
  ⟨by norm_num [truthy, c1Node], (c1_uptime_blend c1Node (by norm_num [truthy, c1Node])).1⟩

/-! ## C2: the offline rule -/

/-- An offline node used for the C2 counterexample. -/
def c2Node : PNode :=
  { id := "n2"
    status := NodeStatus.offline
    lastSeen := 0
    peerCount := 0
    storageCapacity := none
    storageUsed := none
    latency := none
    uptime := none
    isValidator := false }

/-- C2 counterexample: with empty history, `detectAnomaliesForNode` returns
early with no anomalies even for an offline node, so the offline rule does
require non-empty history. -/
theorem c2_counterexample :
    detectAnomaliesForNode c2Node [] = [] ∧
    ¬ ∃ a ∈ detectAnomaliesForNode c2Node [],
        a.type = AnomalyType.offline ∧ a.severity = Severity.critical := by
  have h : detectAnomaliesForNode c2Node [] = [] := rfl
  exact ⟨h, by simp [h]⟩

/-- C2 (amended): for every offline node and every non-empty history, the
detector emits the offline anomaly with severity `critical` and message
"Node is offline"; no further history content is required. -/
theorem c2_offline_rule (node : PNode) (history : List MetricSnapshot)
    (hs : node.status = NodeStatus.offline) (hh : history ≠ []) :
    ({ nodeId := node.id
       type := AnomalyType.offline
       severity := Severity.critical
       message := "Node is offline"
       details := none } : Anomaly) ∈ detectAnomaliesForNode node history := by
  rw [detectAnomaliesForNode, if_neg (by simpa [List.length_eq_zero] using hh)]
  refine List.mem_append_left _ (List.mem_append_left _ (List.mem_append_left _ ?_))
  simp [offlineAnomalies, hs]

/-- A single snapshot making up a non-empty history for the C2 witness. -/
def c2Snap : MetricSnapshot := toSnapshot c2Node 1000

/-- Witness for `c2_offline_rule` at `c2Node` with a one-entry history. -/
theorem c2_offline_rule_witness :
    (c2Node.status = NodeStatus.offline ∧ ([c2Snap] : List MetricSnapshot) ≠ []) ∧
    ({ nodeId := c2Node.id
       type := AnomalyType.offline
       severity := Severity.critical
       message := "Node is offline"
       details := none } : Anomaly) ∈ detectAnomaliesForNode c2Node [c2Snap] :=
  ⟨⟨rfl, by simp⟩, c2_offline_rule c2Node [c2Snap] rfl (by simp)⟩

/-! ## C10: zero-valued fields are treated as absent by the health scorer -/

/-- C10: a zero `uptime` skips the uptime blend (the running score stays at
100 and the reported factor stays neutral), and a zero `storageUsed` or
`storageCapacity` skips the storage blend likewise. -/
theorem c10_zero_as_absent (node : PNode) (now : ℚ) :
    (node.uptime = some 0 →
      (calculateHealthScore node now).factors.uptime = 100 ∧ healthScore1 node = 100)
    ∧ ((node.storageUsed = some 0 ∨ node.storageCapacity = some 0) →
      (calculateHealthScore node now).factors.storageUsage = 100 ∧
        healthScore5 node now = healthScore4 node now) := by
  constructor
  · intro h
    have ht : truthy node.uptime = false := by rw [h]; simp [truthy]
    constructor
    · simp [calculateHealthScore, healthFactorUptime, ht]
    · simp [healthScore1, ht]
  · intro h
    have ht : (truthy node.storageCapacity && truthy node.storageUsed) = false := by
      rcases h with h | h <;> rw [h] <;> simp [truthy]
    constructor
    · simp [calculateHealthScore, healthFactorStorage, ht]
    · simp [healthScore5, ht]

/-- A node with zero uptime and zero storage usage for the C10 witness. -/
def c10Node : PNode :=
  { id := "n10"
    status := NodeStatus.online
    lastSeen := 0
    peerCount := 7
    storageCapacity := some 1000
    storageUsed := some 0
    latency := some 50
    uptime := some 0
    isValidator := false }

/-- Witness for `c10_zero_as_absent` at `c10Node`. -/
theorem c10_zero_as_absent_witness :
    (c10Node.uptime = some 0 ∧
      (calculateHealthScore c10Node 0).factors.uptime = 100 ∧ healthScore1 c10Node = 100)
    ∧ (c10Node.storageUsed = some 0 ∧
      (calculateHealthScore c10Node 0).factors.storageUsage = 100 ∧
        healthScore5 c10Node 0 = healthScore4 c10Node 0) :=
  ⟨⟨rfl, (c10_zero_as_absent c10Node 0).1 rfl⟩,
   ⟨rfl, (c10_zero_as_absent c10Node 0).2 (Or.inl rfl)⟩⟩

/-! ## C3: the percentile helper -/

/-- C3 counterexample: `percentile` does not sort its input; on the
unsorted list `[20, 10]` with `p = 50` it returns the first element 20,
while the claim's sort-then-index reference returns 10. -/
theorem c3_counterexample :
    percentile [20, 10] 50 = some 20 ∧
    percentileClaim [20, 10] 50 = some 10 ∧
    percentile [20, 10] 50 ≠ percentileClaim [20, 10] 50 := by
  refine ⟨?_, ?_, ?_⟩ <;>
    norm_num [percentile, percentileClaim, List.insertionSort, List.orderedInsert,
      Int.ceil_eq_iff, List.get?]

/-- C3 (amended): `percentile` leaves its input unsorted (callers pass
pre-sorted arrays) and clamps the index only from below; on input already
sorted ascending and any percentile `p ≤ 100` it agrees with the claim's
sort-and-clamp reference (the index `ceil(p/100 * n) - 1` then already
lies in `[0, n-1]`), and it returns 0 for empty input. -/
theorem c3_percentile_sorted (xs : List ℚ) (p : ℚ)
    (hs : List.Sorted (fun a b => a ≤ b) xs) (hp : p ≤ 100) :
    percentile xs p = percentileClaim xs p := by
  unfold percentile percentileClaim
  by_cases h0 : xs.length = 0
  · simp [h0]
  · rw [if_neg h0, if_neg h0]
    rw [List.Sorted.insertionSort_eq hs]
    have hn : 1 ≤ xs.length := Nat.one_le_iff_ne_zero.mpr h0
    have hceil : ⌈p / 100 * (xs.length : ℚ)⌉ ≤ (xs.length : ℤ) := by
      rw [Int.ceil_le]
      push_cast
      have hcast : (0 : ℚ) ≤ (xs.length : ℚ) := by positivity
      nlinarith
    have hidx : min (xs.length - 1) (max 0 (⌈p / 100 * (xs.length : ℚ)⌉ - 1)).toNat =
        (max 0 (⌈p / 100 * (xs.length : ℚ)⌉ - 1)).toNat := by
      apply min_eq_right
      omega
    simp only [hidx]

/-- Witness for `c3_percentile_sorted` at the claim's own example
`percentile([10, 20, 30, 40], 50) = 20`. -/
theorem c3_percentile_sorted_witness :
    (List.Sorted (fun a b : ℚ => a ≤ b) [10, 20, 30, 40] ∧ (50 : ℚ) ≤ 100) ∧
    percentile [10, 20, 30, 40] 50 = percentileClaim [10, 20, 30, 40] 50 ∧
    percentile [10, 20, 30, 40] 50 = some 20 :=
  ⟨⟨by norm_num, by norm_num⟩,
   c3_percentile_sorted [10, 20, 30, 40] 50 (by norm_num) (by norm_num),
   by norm_num [percentile, Int.ceil_eq_iff, List.get?]⟩

/-! ## C7: statistical degeneracy guards -/

/-- Folding addition of `f` over a list equals the starting value plus the
sum of the mapped list. -/
theorem foldl_add_map {α : Type} (f : α → ℚ) (l : List α) (a : ℚ) :
    l.foldl (fun acc v => acc + f v) a = a + (l.map f).sum := by
  induction l generalizing a with
  | nil => simp
  | cons x t ih => simp [ih]; ring

/-- The variance expression is nonnegative for lists of length at least
two. -/
theorem svariance_nonneg (values : List ℚ) (h : 2 ≤ values.length) :
    0 ≤ svariance values := by
  unfold svariance
  apply div_nonneg
  · rw [foldl_add_map (fun v => (v - mean values) ^ 2)]
    have : 0 ≤ ((values.map fun v => (v - mean values) ^ 2).sum) := by
      apply List.sum_nonneg
      intro x hx
      obtain ⟨v, _, rfl⟩ := List.mem_map.mp hx
      positivity
    linarith
  · have : (2 : ℚ) ≤ (values.length : ℚ) := by exact_mod_cast h
    linarith

/-- C7: `mean` of the empty list is 0; `stddev` is 0 below two samples and
otherwise is the nonnegative Bessel-corrected sample standard deviation
(its square is the sum of squared deviations over `n - 1`); and `zScore`
is 0 whenever `stddev` is 0, so the division is always guarded. -/
theorem c7_stat_guards :
    mean ([] : List ℚ) = 0
    ∧ (∀ values : List ℚ, values.length < 2 → stddev values = 0)
    ∧ (∀ values : List ℚ, 2 ≤ values.length →
        0 ≤ stddev values ∧
        (stddev values) ^ 2 =
          (((values.map (fun v => (v - mean values) ^ 2)).sum : ℚ) : ℝ) /
            ((values.length : ℝ) - 1))
    ∧ (∀ (value : ℚ) (values : List ℚ), stddev values = 0 → zScore value values = 0) := by
  refine ⟨rfl, ?_, ?_, ?_⟩
  · intro values h
    simp [stddev, h]
  · intro values h
    have hn : ¬ values.length < 2 := not_lt.mpr h
    constructor
    · rw [stddev, if_neg hn]
      exact Real.sqrt_nonneg _
    · rw [stddev, if_neg hn, Real.sq_sqrt (by exact_mod_cast svariance_nonneg values h)]
      unfold svariance
      rw [foldl_add_map (fun v => (v - mean values) ^ 2)]
      push_cast
      ring
  · intro value values h
    rw [zScore, if_pos h]

/-- Witness for `c7_stat_guards`: a singleton series has standard
deviation 0 and hence z-score 0. -/
theorem c7_stat_guards_witness :
    (([(5 : ℚ)] : List ℚ).length < 2 ∧ stddev [(5 : ℚ)] = 0) ∧ zScore 7 [(5 : ℚ)] = 0 :=
  ⟨⟨by norm_num, c7_stat_guards.2.1 [(5 : ℚ)] (by norm_num)⟩,
   c7_stat_guards.2.2.2 7 [(5 : ℚ)] (c7_stat_guards.2.1 [(5 : ℚ)] (by norm_num))⟩

/-! ## C8: network averages -/

/-- C8: `averagePeerCount` is the arithmetic mean over only the nodes with
a positive peer count (0 when that subset is empty), `averageLatency` the
mean over nodes with latency defined, and both are rounded to two decimal
places (`Math.round(x * 100) / 100`). -/
theorem c8_network_averages (nodes : List PNode) :
    (calculateNetworkStats nodes).averagePeerCount =
      round2 (mean ((nodes.filter (fun n => decide (0 < n.peerCount))).map PNode.peerCount))
    ∧ (calculateNetworkStats nodes).averageLatency =
      round2 (mean ((nodes.filter (fun n => n.latency.isSome)).map
        (fun n => n.latency.getD 0)))
    ∧ (nodes.filter (fun n => decide (0 < n.peerCount)) = [] →
        (calculateNetworkStats nodes).averagePeerCount = 0) := by
  have hmean : ∀ (l : List PNode) (f : PNode → ℚ),
      (if 0 < l.length then (l.foldl (fun sum n => sum + f n) 0) / (l.length : ℚ) else 0) =
        mean (l.map f) := by
    intro l f
    unfold mean
    rcases Nat.eq_zero_or_pos l.length with h | h
    · simp [h, List.length_eq_zero.mp h]
    · rw [if_pos h, if_neg (by simpa using Nat.pos_iff_ne_zero.mp h)]
      rw [foldl_add_map f l 0, foldl_add_map (fun v => v) (l.map f) 0]
      simp only [zero_add, List.length_map, List.map_map]
      rfl
  refine ⟨?_, ?_, ?_⟩
  · show round2 _ = round2 (mean _)
    rw [← hmean]
  · show round2 _ = round2 (mean _)
    rw [← hmean]
  · intro h
    show round2 _ = 0
    rw [h]
    simp [round2]

/-- Witness for `c8_network_averages` on a concrete singleton list: the
only node has zero peers, so the subset is empty and the average is 0. -/
theorem c8_network_averages_witness :
    (([c2Node] : List PNode).filter (fun n => decide (0 < n.peerCount)) = []) ∧
    (calculateNetworkStats [c2Node]).averagePeerCount = 0 :=
  ⟨by norm_num [List.filter, c2Node],
   (c8_network_averages [c2Node]).2.2 (by norm_num [List.filter, c2Node])⟩

/-! ## C5: the risk scorer -/

/-- `round` on the rationals is monotone. -/
theorem round_rat_mono {x y : ℚ} (h : x ≤ y) : round x ≤ round y := by
  rw [round_eq, round_eq]
  exact Int.floor_mono (by linarith)

/-- Rounding after clamping to `[0, 100]` agrees with clamping the rounded
value, since the clamp bounds are integers. -/
theorem round_clamp_comm (q : ℚ) :
    max 0 (min 100 (round q)) = round (max 0 (min 100 q)) := by
  have h100 : round (100 : ℚ) = 100 := by
    rw [show (100 : ℚ) = ((100 : ℤ) : ℚ) by norm_num]
    exact round_intCast 100
  rcases le_total q 0 with h0 | h0
  · have hr : round q ≤ 0 := by simpa using round_rat_mono h0
    rw [min_eq_right (by omega : round q ≤ 100), max_eq_left (by omega : round q ≤ 0)]
    rw [min_eq_right (by linarith : q ≤ 100), max_eq_left h0, round_zero]
  · rcases le_total 100 q with h1 | h1
    · have hr : 100 ≤ round q := by simpa [h100] using round_rat_mono h1
      rw [min_eq_left hr, min_eq_left h1, max_eq_right (by omega : (0 : ℤ) ≤ 100),
        max_eq_right (by norm_num : (0 : ℚ) ≤ 100), h100]
    · have hr0 : 0 ≤ round q := by simpa using round_rat_mono h0
      have hr1 : round q ≤ 100 := by simpa [h100] using round_rat_mono h1
      rw [min_eq_right hr1, max_eq_right hr0, min_eq_right h1, max_eq_right h0]

/-- One conditional subtraction step equals subtracting a conditional
penalty. -/
theorem sub_step (x k : ℚ) (c : Prop) [Decidable c] :
    (if c then x - k else x) = x - (if c then k else 0) := by
  split <;> ring

/-- Two-tier conditional subtraction as a penalty. -/
theorem sub_step2 (x k1 k2 : ℚ) (c1 c2 : Prop) [Decidable c1] [Decidable c2] :
    (if c1 then x - k1 else if c2 then x - k2 else x) =
      x - (if c1 then k1 else if c2 then k2 else 0) := by
  split_ifs <;> ring

/-- Three-tier conditional subtraction as a penalty. -/
theorem sub_step3 (x k1 k2 k3 : ℚ) (c1 c2 c3 : Prop)
    [Decidable c1] [Decidable c2] [Decidable c3] :
    (if c1 then x - k1 else if c2 then x - k2 else if c3 then x - k3 else x) =
      x - (if c1 then k1 else if c2 then k2 else if c3 then k3 else 0) := by
  split_ifs <;> ring

/-- Per-anomaly sequential subtraction of severity weights equals
subtracting their sum. -/
theorem foldl_sub_weights (l : List Anomaly) (s : ℚ) :
    l.foldl (fun acc a => acc - severityWeights a.severity) s =
      s - (l.map (fun a => severityWeights a.severity)).sum := by
  induction l generalizing s with
  | nil => simp
  | cons a t ih => simp [ih]; ring

/-- After the status block the running score is 100 minus the status
penalty. -/
theorem riskS1_eq (node : PNode) : riskS1 node = 100 - statusPenalty node := by
  unfold riskS1 statusPenalty
  split <;> ring

/-- After the latency block the running score has additionally lost the
latency penalty. -/
theorem riskS2_eq (node : PNode) : riskS2 node = riskS1 node - latencyPenalty node := by
  rcases h : node.latency with _ | l
  · simp [riskS2, latencyPenalty, h]
  · simp only [riskS2, latencyPenalty, h]
    split_ifs <;> ring

/-- After the peer block the running score has additionally lost the peer
penalty. -/
theorem riskS3_eq (node : PNode) : riskS3 node = riskS2 node - peerPenalty node := by
  unfold riskS3 peerPenalty
  split_ifs <;> ring

/-- After the storage block the running score has additionally lost the
claim's presence-guarded storage penalty: when either field is zero the
computed usage is zero and neither tier fires, matching the truthiness
guard. -/
theorem riskS4_eq (node : PNode) : riskS4 node = riskS3 node - storagePenalty node := by
  rcases hu : node.storageUsed with _ | u <;> rcases hc : node.storageCapacity with _ | c <;>
    simp only [riskS4, storagePenalty, hu, hc, truthy, Bool.false_and, Bool.and_false,
      Bool.if_false_left, Option.getD_some]
  · simp
  · simp
  · simp
  · by_cases hc0 : c = 0
    · subst hc0
      norm_num [usagePercent]
    · by_cases hu0 : u = 0
      · subst hu0
        norm_num [usagePercent]
      · simp only [hc0, hu0, ne_eq, not_false_eq_true, decide_True, Bool.and_self, if_true]
        split_ifs <;> ring

/-- After the uptime block the running score has additionally lost the
code's truthiness-guarded uptime penalty. -/
theorem riskS5_eq (node : PNode) : riskS5 node = riskS4 node - uptimePenaltyCode node := by
  unfold riskS5 uptimePenaltyCode
  split_ifs <;> ring

/-- After the anomaly loop the running score has additionally lost the
summed severity weights. -/
theorem riskS6_eq (node : PNode) (anomalies : List Anomaly) :
    riskS6 node anomalies = riskS5 node - anomalyPenalty anomalies :=
  foldl_sub_weights anomalies (riskS5 node)

/-- C5 counterexample node: online, twenty peers, uptime exactly 0. -/
def c5Node : PNode :=
  { id := "n5"
    status := NodeStatus.online
    lastSeen := 0
    peerCount := 20
    storageCapacity := none
    storageUsed := none
    latency := none
    uptime := some 0
    isValidator := false }

/-- C5 counterexample: the code guards the uptime penalty with JavaScript
truthiness, so a present uptime of 0 seconds (below 24h) is not penalized:
the code returns 100 where the claim's reference definition returns 90. -/
theorem c5_counterexample :
    deriveRiskScore c5Node [] = 100 ∧
    deriveRiskScoreClaim c5Node [] = 90 ∧
    deriveRiskScore c5Node [] ≠ deriveRiskScoreClaim c5Node [] := by
  have hoff : (NodeStatus.online = NodeStatus.offline) = False := eq_false (by decide)
  have hunk : (NodeStatus.online = NodeStatus.unknown) = False := eq_false (by decide)
  refine ⟨?_, ?_, ?_⟩ <;>
    norm_num [deriveRiskScore, deriveRiskScoreClaim, riskS6, riskS5, riskS4, riskS3,
      riskS2, riskS1, statusPenalty, latencyPenalty, peerPenalty, storagePenalty,
      uptimePenaltyClaim, anomalyPenalty, truthy, c5Node, hoff, hunk, round_eq]

/-- C5 (amended): `deriveRiskScore` equals the claim's reference definition
once the uptime penalty is conditioned on a truthy (present and nonzero)
uptime below 24 hours; offline still short-circuits to exactly 5
regardless of all other inputs. -/
theorem c5_risk_score (node : PNode) (anomalies : List Anomaly) :
    deriveRiskScore node anomalies = deriveRiskScoreAmended node anomalies := by
  unfold deriveRiskScore deriveRiskScoreAmended
  by_cases hoff : node.status = NodeStatus.offline
  · rw [if_pos hoff, if_pos hoff]
  · rw [if_neg hoff, if_neg hoff, ← round_clamp_comm]
    refine congrArg (fun z : ℚ => max 0 (min 100 (round z))) ?_
    rw [riskS6_eq, riskS5_eq, riskS4_eq, riskS3_eq, riskS2_eq, riskS1_eq]

/-! ## C4 and C9: the rolling history store -/

/-- `pushEvict` is push-then-evict-from-the-front: the appended list with
its oldest overflow dropped. -/
theorem pushEvict_eq_drop (list : List MetricSnapshot) (snap : MetricSnapshot) :
    pushEvict list snap =
      (list ++ [snap]).drop ((list ++ [snap]).length - MAX_HISTORY) := by
  simp only [pushEvict]
  by_cases h : MAX_HISTORY < (list ++ [snap]).length
  · rw [if_pos h]
  · rw [if_neg h, Nat.sub_eq_zero_of_le (not_lt.mp h), List.drop_zero]

/-- A pushed sequence never exceeds the cap. -/
theorem pushEvict_length_le (list : List MetricSnapshot) (snap : MetricSnapshot) :
    (pushEvict list snap).length ≤ MAX_HISTORY := by
  simp only [pushEvict]
  split_ifs with h
  · simp only [List.length_drop]
    omega
  · omega

/-- With distinct input ids, each input node's sequence after
`updateHistory` is exactly its old sequence pushed-and-evicted once. -/
theorem updateHistory_mem_nodup (nodes : List PNode) (now : ℚ) (h : History) (node : PNode)
    (hnd : (nodes.map PNode.id).Nodup) (hmem : node ∈ nodes) :
    updateHistory nodes now h node.id = pushEvict (h node.id) (toSnapshot node now) := by
  induction nodes generalizing h with
  | nil => cases hmem
  | cons m rest ih =>
    rw [List.map_cons] at hnd
    have h1 := (List.nodup_cons.mp hnd).1
    have h2 := (List.nodup_cons.mp hnd).2
    rw [updateHistory_cons]
    rcases List.mem_cons.mp hmem with rfl | hmem'
    · rw [updateHistory_not_mem rest now _ node.id h1, Function.update_same]
    · have hne : node.id ≠ m.id := by
        intro he
        exact h1 (he ▸ List.mem_map_of_mem PNode.id hmem')
      rw [ih _ h2 hmem', Function.update_noteq hne]

/-- `updateHistory` preserves the cap invariant on every sequence. -/
theorem updateHistory_length_le (nodes : List PNode) (now : ℚ) (h : History)
    (hb : ∀ id, (h id).length ≤ MAX_HISTORY) (id : String) :
    ((updateHistory nodes now h) id).length ≤ MAX_HISTORY := by
  induction nodes generalizing h with
  | nil => exact hb id
  | cons m rest ih =>
    rw [updateHistory_cons]
    apply ih
    intro j
    by_cases hj : j = m.id
    · subst hj
      rw [Function.update_same]
      exact pushEvict_length_le _ _
    · rw [Function.update_noteq hj]
      exact hb j

/-- A sequence of single-node `updateHistory` calls for one id acts on
that id's sequence as a fold of `pushEvict` over the call snapshots. -/
theorem foldl_single_calls (calls : List (PNode × ℚ)) (h : History) (id : String)
    (hc : ∀ c ∈ calls, c.1.id = id) :
    (calls.foldl (fun acc c => updateHistory [c.1] c.2 acc) h) id =
      calls.foldl (fun l c => pushEvict l (toSnapshot c.1 c.2)) (h id) := by
  induction calls generalizing h with
  | nil => rfl
  | cons c rest ih =>
    have hcid : c.1.id = id := hc c (List.mem_cons_self c rest)
    have hrest : ∀ d ∈ rest, d.1.id = id := fun d hd => hc d (List.mem_cons_of_mem c hd)
    simp only [List.foldl_cons]
    rw [ih _ hrest]
    congr 1
    rw [updateHistory_cons, updateHistory_nil, hcid, Function.update_same]

/-- Folding `pushEvict` from a capped sequence keeps exactly the newest
`MAX_HISTORY` entries of the concatenated stream, in order. -/
theorem foldl_pushEvict_drop (ss : List MetricSnapshot) :
    ∀ l : List MetricSnapshot, l.length ≤ MAX_HISTORY →
      ss.foldl pushEvict l = (l ++ ss).drop ((l ++ ss).length - MAX_HISTORY) := by
  induction ss with
  | nil =>
    intro l hl
    simp only [List.foldl_nil, List.append_nil]
    rw [Nat.sub_eq_zero_of_le hl, List.drop_zero]
  | cons s rest ih =>
    intro l hl
    have hd : (l ++ [s]).length - MAX_HISTORY ≤ (l ++ [s]).length := Nat.sub_le _ _
    simp only [List.foldl_cons]
    rw [ih (pushEvict l s) (pushEvict_length_le l s), pushEvict_eq_drop,
      ← List.drop_append_of_le_length hd, List.drop_drop, List.append_assoc,
      List.singleton_append]
    congr 1
    simp only [List.length_append, List.length_drop, List.length_cons,
      List.length_singleton, List.length_nil]
    omega

/-- C4: `updateHistory` pushes exactly one snapshot per input node
(push-then-evict-from-the-front on that node's sequence), preserves the
`length ≤ MAX_HISTORY` invariant on every sequence, and across more than
`MAX_HISTORY` single-node calls a node's sequence holds exactly the newest
50 snapshots in chronological order. -/
theorem c4_history_bounded_fifo :
    (∀ (list : List MetricSnapshot) (snap : MetricSnapshot),
        pushEvict list snap =
          (list ++ [snap]).drop ((list ++ [snap]).length - MAX_HISTORY))
    ∧ (∀ (nodes : List PNode) (now : ℚ) (h : History) (node : PNode),
        (nodes.map PNode.id).Nodup → node ∈ nodes →
        updateHistory nodes now h node.id = pushEvict (h node.id) (toSnapshot node now))
    ∧ (∀ (nodes : List PNode) (now : ℚ) (h : History),
        (∀ id, (h id).length ≤ MAX_HISTORY) →
        ∀ id, ((updateHistory nodes now h) id).length ≤ MAX_HISTORY)
    ∧ (∀ (calls : List (PNode × ℚ)) (id : String),
        (∀ c ∈ calls, c.1.id = id) → MAX_HISTORY < calls.length →
        (calls.foldl (fun acc c => updateHistory [c.1] c.2 acc) emptyHistory) id =
          (calls.map (fun c => toSnapshot c.1 c.2)).drop (calls.length - MAX_HISTORY)
        ∧ ((calls.foldl (fun acc c => updateHistory [c.1] c.2 acc) emptyHistory) id).length
            = MAX_HISTORY) := by
  refine ⟨pushEvict_eq_drop, updateHistory_mem_nodup, updateHistory_length_le, ?_⟩
  intro calls id hc hlen
  have key : (calls.foldl (fun acc c => updateHistory [c.1] c.2 acc) emptyHistory) id =
      (calls.map (fun c => toSnapshot c.1 c.2)).drop (calls.length - MAX_HISTORY) := by
    rw [foldl_single_calls calls emptyHistory id hc]
    have hfold : calls.foldl (fun l c => pushEvict l (toSnapshot c.1 c.2))
        (emptyHistory id) =
        (calls.map (fun c => toSnapshot c.1 c.2)).foldl pushEvict (emptyHistory id) := by
      rw [List.foldl_map]
    rw [hfold]
    rw [foldl_pushEvict_drop _ _ (by simp [emptyHistory, MAX_HISTORY])]
    simp [emptyHistory]
  refine ⟨key, ?_⟩
  rw [key]
  simp only [List.length_drop, List.length_map]
  omega

/-- Witness for `c4_history_bounded_fifo`: 51 single-node calls for one id
leave exactly the newest 50 snapshots. -/
theorem c4_history_bounded_fifo_witness :
    ((∀ c ∈ List.replicate 51 (c2Node, (0 : ℚ)), c.1.id = "n2") ∧
      MAX_HISTORY < (List.replicate 51 (c2Node, (0 : ℚ))).length) ∧
    ((List.replicate 51 (c2Node, (0 : ℚ))).foldl
        (fun acc c => updateHistory [c.1] c.2 acc) emptyHistory) "n2" =
      ((List.replicate 51 (c2Node, (0 : ℚ))).map (fun c => toSnapshot c.1 c.2)).drop
        ((List.replicate 51 (c2Node, (0 : ℚ))).length - MAX_HISTORY) :=
  ⟨⟨by intro c hcm; rw [List.eq_of_mem_replicate hcm]; rfl,
    by simp only [List.length_replicate, MAX_HISTORY]; omega⟩,
   (c4_history_bounded_fifo.2.2.2 (List.replicate 51 (c2Node, (0 : ℚ))) "n2"
      (by intro c hcm; rw [List.eq_of_mem_replicate hcm]; rfl)
      (by simp only [List.length_replicate, MAX_HISTORY]; omega)).1⟩

/-- C9: the history append never touches sequences of ids absent from the
input list (stale entries persist). -/
theorem c9_history_frame (nodes : List PNode) (now : ℚ) (h : History) (id : String)
    (hid : id ∉ nodes.map PNode.id) : updateHistory nodes now h id = h id :=
  updateHistory_not_mem nodes now h id hid

/-- Witness for `c9_history_frame`: appending a snapshot for one node
leaves another id's stored sequence untouched. -/
theorem c9_history_frame_witness :
    ("other" ∉ ([c2Node] : List PNode).map PNode.id) ∧
    updateHistory [c2Node] 5 (fun _ => [c2Snap]) "other" = [c2Snap] :=
  ⟨by simp [c2Node], c9_history_frame [c2Node] 5 (fun _ => [c2Snap]) "other" (by simp [c2Node])⟩

/-! ## C6: the latency-spike rule -/

/-- The offline block emits nothing or one `offline`-typed anomaly. -/
theorem offlineAnomalies_shape (node : PNode) :
    offlineAnomalies node = [] ∨
      ∃ x : Anomaly, offlineAnomalies node = [x] ∧ x.type = AnomalyType.offline := by
  unfold offlineAnomalies
  split
  · exact Or.inr ⟨_, rfl, rfl⟩
  · exact Or.inl rfl

/-- The peer-drop block emits nothing or one `peer_drop`-typed anomaly. -/
theorem peerAnomalies_shape (node : PNode) (history : List MetricSnapshot) :
    peerAnomalies node history = [] ∨
      ∃ x : Anomaly, peerAnomalies node history = [x] ∧
        x.type = AnomalyType.peer_drop := by
  unfold peerAnomalies
  split
  · exact Or.inl rfl
  · split
    · exact Or.inl rfl
    · split
      · exact Or.inr ⟨_, rfl, rfl⟩
      · exact Or.inl rfl

/-- The storage block emits nothing or one `storage_anomaly`-typed
anomaly. -/
theorem storageAnomalies_shape (node : PNode) (history : List MetricSnapshot) :
    storageAnomalies node history = [] ∨
      ∃ x : Anomaly, storageAnomalies node history = [x] ∧
        x.type = AnomalyType.storage_anomaly := by
  unfold storageAnomalies
  split
  · split
    · exact Or.inr ⟨_, rfl, rfl⟩
    · split
      · exact Or.inl rfl
      · split
        · exact Or.inr ⟨_, rfl, rfl⟩
        · exact Or.inl rfl
  · exact Or.inl rfl

/-- Every anomaly emitted by the offline block has type `offline`. -/
theorem offlineAnomalies_type {node : PNode} {a : Anomaly}
    (h : a ∈ offlineAnomalies node) : a.type = AnomalyType.offline := by
  rcases offlineAnomalies_shape node with he | ⟨x, he, hty⟩
  · rw [he] at h
    cases h
  · rw [he] at h
    simp only [List.mem_singleton] at h
    subst h
    exact hty

/-- Every anomaly emitted by the peer-drop block has type `peer_drop`. -/
theorem peerAnomalies_type {node : PNode} {history : List MetricSnapshot} {a : Anomaly}
    (h : a ∈ peerAnomalies node history) : a.type = AnomalyType.peer_drop := by
  rcases peerAnomalies_shape node history with he | ⟨x, he, hty⟩
  · rw [he] at h
    cases h
  · rw [he] at h
    simp only [List.mem_singleton] at h
    subst h
    exact hty

/-- Every anomaly emitted by the storage block has type `storage_anomaly`. -/
theorem storageAnomalies_type {node : PNode} {history : List MetricSnapshot} {a : Anomaly}
    (h : a ∈ storageAnomalies node history) : a.type = AnomalyType.storage_anomaly := by
  rcases storageAnomalies_shape node history with he | ⟨x, he, hty⟩
  · rw [he] at h
    cases h
  · rw [he] at h
    simp only [List.mem_singleton] at h
    subst h
    exact hty

open Classical in
/-- When all three guards hold, the latency block emits exactly its
singleton anomaly. -/
theorem latencyAnomalies_eq_pos (node : PNode) (history : List MetricSnapshot)
    (ht : truthy node.latency = true) (hlen : 4 ≤ history.length)
    (hz : (5 / 2 : ℝ) ≤ zScore (node.latency.getD 0) (latencySeries history)) :
    latencyAnomalies node history =
      [{ nodeId := node.id
         type := AnomalyType.latency_spike
         severity :=
           if (3 : ℝ) ≤ zScore (node.latency.getD 0) (latencySeries history) then
             Severity.high
           else Severity.medium
         message := "Latency anomaly"
         details := some (AnomalyDetails.zScoreDetails
           (zScore (node.latency.getD 0) (latencySeries history))) }] := by
  have hb : (truthy node.latency && decide (4 ≤ history.length)) = true := by
    rw [Bool.and_eq_true]
    exact ⟨ht, by simpa using hlen⟩
  unfold latencyAnomalies
  rw [if_pos hb, if_pos hz]

/-- When any guard fails, the latency block emits nothing. -/
theorem latencyAnomalies_eq_nil (node : PNode) (history : List MetricSnapshot)
    (hfail : ¬(truthy node.latency = true ∧ 4 ≤ history.length ∧
      (5 / 2 : ℝ) ≤ zScore (node.latency.getD 0) (latencySeries history))) :
    latencyAnomalies node history = [] := by
  unfold latencyAnomalies
  by_cases hb : (truthy node.latency && decide (4 ≤ history.length)) = true
  · rw [Bool.and_eq_true, decide_eq_true_eq] at hb
    rw [if_pos (by rw [Bool.and_eq_true]; exact ⟨hb.1, by simpa using hb.2⟩)]
    rw [if_neg (fun hz => hfail ⟨hb.1, hb.2, hz⟩)]
  · rw [if_neg hb]

open Classical in
/-- C6: the detector emits a `latency_spike` anomaly exactly when
`node.latency` is truthy, the history holds at least 4 entries, and the
z-score of the current latency against the zero-filtered latency series is
at least 2.5; any emitted `latency_spike` carries severity `high` when the
z-score is at least 3 (`medium` otherwise) and the z-score in its
details. -/
theorem c6_latency_spike (node : PNode) (history : List MetricSnapshot) :
    ((∃ a ∈ detectAnomaliesForNode node history, a.type = AnomalyType.latency_spike) ↔
      (truthy node.latency = true ∧ 4 ≤ history.length ∧
        (5 / 2 : ℝ) ≤ zScore (node.latency.getD 0) (latencySeries history)))
    ∧ (∀ a ∈ detectAnomaliesForNode node history, a.type = AnomalyType.latency_spike →
        a.severity = (if (3 : ℝ) ≤ zScore (node.latency.getD 0) (latencySeries history)
            then Severity.high else Severity.medium) ∧
        a.details = some (AnomalyDetails.zScoreDetails
          (zScore (node.latency.getD 0) (latencySeries history)))) := by
  by_cases h0 : history.length = 0
  · constructor
    · rw [detectAnomaliesForNode, if_pos h0]
      simp [h0]
    · rw [detectAnomaliesForNode, if_pos h0]
      intro a ha
      cases ha
  · constructor
    · constructor
      · rintro ⟨a, ha, hty⟩
        rw [detectAnomaliesForNode, if_neg h0] at ha
        rcases List.mem_append.mp ha with ha1 | hstor
        · rcases List.mem_append.mp ha1 with ha2 | hpeer
          · rcases List.mem_append.mp ha2 with hoff | hlat
            · rw [offlineAnomalies_type hoff] at hty
              simp at hty
            · by_cases hcond : truthy node.latency = true ∧ 4 ≤ history.length ∧
                (5 / 2 : ℝ) ≤ zScore (node.latency.getD 0) (latencySeries history)
              · exact hcond
              · rw [latencyAnomalies_eq_nil node history hcond] at hlat
                cases hlat
          · rw [peerAnomalies_type hpeer] at hty
            simp at hty
        · rw [storageAnomalies_type hstor] at hty
          simp at hty
      · rintro ⟨ht, hlen, hz⟩
        refine ⟨{ nodeId := node.id
                  type := AnomalyType.latency_spike
                  severity :=
                    if (3 : ℝ) ≤ zScore (node.latency.getD 0) (latencySeries history) then
                      Severity.high
                    else Severity.medium
                  message := "Latency anomaly"
                  details := some (AnomalyDetails.zScoreDetails
                    (zScore (node.latency.getD 0) (latencySeries history))) }, ?_, rfl⟩
        rw [detectAnomaliesForNode, if_neg h0]
        refine List.mem_append_left _ (List.mem_append_left _ (List.mem_append_right _ ?_))
        rw [latencyAnomalies_eq_pos node history ht hlen hz]
        exact List.mem_singleton_self _
    · intro a ha hty
      rw [detectAnomaliesForNode, if_neg h0] at ha
      rcases List.mem_append.mp ha with ha1 | hstor
      · rcases List.mem_append.mp ha1 with ha2 | hpeer
        · rcases List.mem_append.mp ha2 with hoff | hlat
          · rw [offlineAnomalies_type hoff] at hty
            simp at hty
          · by_cases hcond : truthy node.latency = true ∧ 4 ≤ history.length ∧
              (5 / 2 : ℝ) ≤ zScore (node.latency.getD 0) (latencySeries history)
            · rw [latencyAnomalies_eq_pos node history hcond.1 hcond.2.1 hcond.2.2] at hlat
              simp only [List.mem_singleton] at hlat
              subst hlat
              exact ⟨rfl, rfl⟩
            · rw [latencyAnomalies_eq_nil node history hcond] at hlat
              cases hlat
        · rw [peerAnomalies_type hpeer] at hty
          simp at hty
      · rw [storageAnomalies_type hstor] at hty
        simp at hty

/-- A node with current latency 8ms for the C6 witness. -/
def c6Node : PNode :=
  { id := "n6"
    status := NodeStatus.online
    lastSeen := 0
    peerCount := 20
    storageCapacity := none
    storageUsed := none
    latency := some 8
    uptime := none
    isValidator := false }

/-- A history snapshot carrying only a latency sample. -/
def c6Snap (v : ℚ) : MetricSnapshot :=
  { timestamp := 0
    latency := some v
    peerCount := none
    storageUsed := none
    storageCapacity := none
    uptime := none
    status := NodeStatus.online }

/-- A four-entry history whose latency series `[1, 1, 1, 5]` has mean 2 and
sample variance 4 (standard deviation 2), so current latency 8 has
z-score 3. -/
def c6Hist : List MetricSnapshot := [c6Snap 1, c6Snap 1, c6Snap 1, c6Snap 5]

/-- The latency series of the witness history. -/
theorem c6Hist_series : latencySeries c6Hist = [1, 1, 1, 5] := by
  norm_num [latencySeries, c6Hist, c6Snap]

/-- The witness z-score evaluates to 3. -/
theorem c6Hist_zScore : zScore 8 [1, 1, 1, 5] = 3 := by
  have hmean : mean [1, 1, 1, 5] = 2 := by
    norm_num [mean, List.foldl_cons, List.foldl_nil]
  have hvar : svariance [1, 1, 1, 5] = 4 := by
    norm_num [svariance, mean, List.foldl_cons, List.foldl_nil]
  have hstd : stddev [1, 1, 1, 5] = 2 := by
    rw [stddev, if_neg (by norm_num), hvar,
      show (((4 : ℚ) : ℝ)) = (2 : ℝ) ^ 2 by norm_num]
    exact Real.sqrt_sq (by norm_num)
  rw [zScore, if_neg (by rw [hstd]; norm_num), hstd, hmean]
  norm_num

/-- Witness for `c6_latency_spike`: on `c6Node` and `c6Hist` the guards
hold with z-score 3, and a `latency_spike` anomaly is emitted. -/
theorem c6_latency_spike_witness :
    (truthy c6Node.latency = true ∧ 4 ≤ c6Hist.length ∧
      (5 / 2 : ℝ) ≤ zScore (c6Node.latency.getD 0) (latencySeries c6Hist)) ∧
    ∃ a ∈ detectAnomaliesForNode c6Node c6Hist, a.type = AnomalyType.latency_spike := by
  have hz : (5 / 2 : ℝ) ≤ zScore (c6Node.latency.getD 0) (latencySeries c6Hist) := by
    rw [show c6Node.latency.getD 0 = 8 from rfl, c6Hist_series, c6Hist_zScore]
    norm_num
  have hcond : truthy c6Node.latency = true ∧ 4 ≤ c6Hist.length ∧
      (5 / 2 : ℝ) ≤ zScore (c6Node.latency.getD 0) (latencySeries c6Hist) :=
    ⟨by norm_num [truthy, c6Node], by norm_num [c6Hist], hz⟩
  exact ⟨hcond, (c6_latency_spike c6Node c6Hist).1.mpr hcond⟩

end Xandeum
